import Mathlib

/-!
Verification development for the document-assembly pipeline of
`publish/build-book.py`: the exclusion-rule selection engine (pattern-flag
mini-language, metadata token substitution, negation, first-decisive-rule
evaluation), the table-of-contents generator (`generate_toc`), and the
ToC-directive expander (`process_toc` / `toc_replace`).

Python strings are modelled as Lean `String` / `List Char`; the handful of
fixed regular expressions used by the script are implemented directly as
character-list scanners with the exact matching semantics of Python `re`
(leftmost match, greedy/lazy backtracking) on those fixed patterns.
User-supplied search patterns of exclusion rules are never interpreted by
the script itself except by passing them to `re.search`, so rule evaluation
is parameterised by an abstract matcher `Matcher` standing for
`re.search pattern text`.  Python's logging (`inform`) is modelled by
returning the list of emitted warning messages; exceptions escaping to the
top level (which abort the run) are modelled with `Except`.
-/

/-- Python `\s` (whitespace) on the ASCII range, as used by `re` and `str.strip`. -/
def isPyWs (c : Char) : Bool :=
  c == ' ' || c == '\t' || c == '\n' || c == '\r' || c == '\x0b' || c == '\x0c'

/-- Python `\w` (word character) on the ASCII range: letters, digits, underscore. -/
def isWordChar (c : Char) : Bool :=
  c.isAlphanum || c == '_'

/-- Strip whitespace from both ends of a character list (Python `str.strip()`). -/
def pyTrim (cs : List Char) : List Char :=
  ((cs.dropWhile isPyWs).reverse.dropWhile isPyWs).reverse

/-- Strip whitespace from the right end only (Python `str.rstrip()`). -/
def pyTrimRight (cs : List Char) : List Char :=
  (cs.reverse.dropWhile isPyWs).reverse

/-- Replace every maximal nonempty run of characters satisfying `p` with the single
character `r` (the effect of `re.sub(r"X+", r, s)` for a character class `X`). -/
def collapseRuns (p : Char → Bool) (r : Char) (inRun : Bool) : List Char → List Char
  | [] => []
  | c :: rest =>
    if p c then (if inRun then [] else [r]) ++ collapseRuns p r true rest
    else c :: collapseRuns p r false rest

/-- Strip a given character from both ends (Python `str.strip('-')`). -/
def trimChar (x : Char) (cs : List Char) : List Char :=
  ((cs.dropWhile (· == x)).reverse.dropWhile (· == x)).reverse

/-- Case-insensitive test that `pat` is a prefix of `cs` (ASCII lowering). -/
def ciHasPre (pat : List Char) (cs : List Char) : Bool :=
  match pat, cs with
  | [], _ => true
  | _ :: _, [] => false
  | p :: ps, c :: rest => (c.toLower == p) && ciHasPre ps rest

-- === Pattern flags (`pattern_has_flag` / `pattern_strip_flag`) ===
-- The flag regex is  ^\(\?[a-zA-Z]*(F)[^\)]*\)  for a flag letter F.  With
-- Python's backtracking the captured group is the LAST occurrence of F inside
-- the leading letter run after "(?" from which a ')' is still reachable.

/-- Scan candidate positions for the flag letter inside the leading letter run,
from the rightmost one down, requiring a later `)` in the pattern
(the `[^\)]*\)` continuation).  Returns the index of the letter inside the run. -/
def findLastFlag (letters rest : List Char) (flag : Char) : Nat → Option Nat
  | 0 => none
  | p + 1 =>
    if letters[p]? == some flag && (rest.drop (p + 1)).contains ')' then some p
    else findLastFlag letters rest flag p

/-- Position of the single-letter flag group `(F)` matched by the script's
`pattern_flag_regex` inside `patt`, i.e. `match.start(1)` of
`re.match(r"^\(\?[a-zA-Z]*(F)[^\)]*\)", patt)`; `none` when the regex does not match. -/
def flagGroupPos (patt : List Char) (flag : Char) : Option Nat :=
  match patt with
  | '(' :: '?' :: rest =>
    let letters := rest.takeWhile Char.isAlpha
    match findLastFlag letters rest flag letters.length with
    | some p => some (2 + p)
    | none => none
  | _ => none

/-- The script's `pattern_has_flag(patt, flag)` viewed as a Boolean. -/
def pattern_has_flag (patt : String) (flag : Char) : Bool :=
  (flagGroupPos patt.data flag).isSome

/-- The script's `pattern_strip_flag`: remove exactly the captured flag letter
(`patt[:m.start(1)] + patt[m.end(1):]`); the emptied group shell `(?)` is left behind. -/
def pattern_strip_flag (patt : String) (flag : Char) : String :=
  match flagGroupPos patt.data flag with
  | some p => String.mk (patt.data.take p ++ patt.data.drop (p + 1))
  | none => patt

-- === Metadata token substitution ===
-- pattern_metadata_key_regex = r"\%([^\%]+?)\%": the leftmost token is the first
-- '%' that has a next '%' at distance at least 2; the key is the text between.

/-- Leftmost `%key%` token of `re.search(r"\%([^\%]+?)\%", s)`:
returns `(start, end, key)` with `end` the index of the closing `%`. -/
def findToken : List Char → Nat → Option (Nat × Nat × List Char)
  | [], _ => none
  | '%' :: rest, i =>
    let key := rest.takeWhile (· != '%')
    match rest.drop key.length with
    | '%' :: _ =>
      if key.isEmpty then findToken rest (i + 1)
      else some (i, i + key.length + 1, key)
    | _ => findToken rest (i + 1)
  | _ :: rest, i => findToken rest (i + 1)

/-- Association-list lookup standing for `meta_key in json_contents` /
`json_contents[meta_key]` on the flat metadata record. -/
def metaLookup (meta : List (String × String)) (key : String) : Option String :=
  match meta.find? (fun kv => kv.1 == key) with
  | some kv => some kv.2
  | none => none

/-- The `while token_match:` substitution loop: repeatedly replace the leftmost
`%key%` token with the metadata value; a missing key invalidates the rule
(`none`).  `fuel` bounds the iteration count; exhausting it (also `none`)
stands for the loop never completing. -/
def substTokensFuel (meta : List (String × String)) : Nat → List Char → Option (List Char)
  | 0, _ => none
  | fuel + 1, s =>
    match findToken s 0 with
    | none => some s
    | some (i, j, key) =>
      match metaLookup meta (String.mk key) with
      | some v => substTokensFuel meta fuel (s.take i ++ v.data ++ s.drop (j + 1))
      | none => none

/-- The largest `%` count of any metadata value (an upper bound on the tokens one
substitution step can introduce). -/
def metaTokenBound (meta : List (String × String)) : Nat :=
  meta.foldl (fun acc kv => max acc (kv.2.data.countP (· == '%'))) 0

/-- Token substitution on a string.  The Python loop is genuinely partial (a
self-referential value such as `a → "%a%"` loops forever), so the model runs it
on a fuel budget covering every terminating run whose tokens come from the
substituted values themselves (no token assembled across a substitution
boundary): expansions then form a forest of token instances with at most
`countP '%' v` roots, branching at most `metaTokenBound meta`, and acyclic
reference depth at most `meta.length`, so the budget below dominates the
iteration count; in particular it covers chained values such as
`a → %b%, b → %c%, c → x`.  Fuel exhaustion (`none`, the rule dropped) stands
for a loop Python would never complete. -/
def subst_meta (meta : List (String × String)) (v : String) : Option String :=
  let fuel := (v.data.countP (· == '%') + 1) *
    (metaTokenBound meta + 1) ^ (meta.length + 1) + 1
  match substTokensFuel meta fuel v.data with
  | some cs => some (String.mk cs)
  | none => none

-- === Exclusion rules: data model and loading ===

/-- One parsed exclusion rule (the `exclusion` dict of the script): mode and scope
are normalised to their long forms, `negated` lists the keys ("search"/"path")
whose match result is inverted. -/
structure Exclusion where
  mode : String
  scope : String
  path : String
  search : String
  comment : Option String
  negated : List String
deriving DecidableEq

def mode_exclude : String := "exclude"
def mode_include : String := "include"
def path_any : String := "*"
def valid_exclusion_modes : List String := ["exclude", "e", "include", "i"]
def valid_exclusion_scopes : List String :=
  ["filename", "f", "filepath", "p", "fullpath", "u", "contents", "c"]

/-- Normalise a single-letter mode abbreviation to its long form (lines 426-429). -/
def normalizeMode (m : String) : String :=
  if m == "e" then "exclude" else if m == "i" then "include" else m

/-- Normalise a single-letter scope abbreviation to its long form (lines 431-438). -/
def normalizeScope (s : String) : String :=
  if s == "f" then "filename"
  else if s == "p" then "filepath"
  else if s == "u" then "fullpath"
  else if s == "c" then "contents"
  else s

/-- Metadata-flag rewriting of one pattern-bearing field (`search` or `path`),
lines 445-480 of the script for a non-comment key: if the field value is truthy
and carries the `(?M)` flag, the flag letter is stripped and `%key%` tokens are
substituted.  Returns `(new value, rule_rewritten', valid)`.  When substitution
fails the stored value is irrelevant because the whole rule is dropped. -/
def rewriteField (meta : List (String × String)) (rr : Bool) (v : String) :
    String × Bool × Bool :=
  if v != "" then
    if pattern_has_flag v 'M' then
      let v1 := pattern_strip_flag v 'M'
      if v1 != "" then
        match subst_meta meta v1 with
        | some v2 => (v2, true, true)
        | none => (v1, true, false)
      else (v, true, true)
    else (v, rr, true)
  else (v, rr, true)

/-- Metadata rewriting of the comment field: rewritten whenever an earlier field
was rewritten and a comment is present (without any flag detection), and
otherwise treated like a pattern-bearing field. -/
def rewriteComment (meta : List (String × String)) (rr : Bool) :
    Option String → Option String × Bool × Bool
  | none => (none, rr, true)
  | some v =>
    if rr then
      if v != "" then
        match subst_meta meta v with
        | some v2 => (some v2, rr, true)
        | none => (some v, rr, false)
      else (some v, rr, true)
    else
      match rewriteField meta rr v with
      | (v', rr', ok) => (some v', rr', ok)

/-- Negation-flag processing of one field (lines 486-496): a `(?N)` flag adds the
key to the `negated` list and the flag letter is stripped from the pattern. -/
def negationField (key : String) (v : String) : String × List String :=
  if pattern_has_flag v 'N' then (pattern_strip_flag v 'N', [key])
  else (v, [])

/-- Load one exclusions-file line already split into tab components
(lines 420-499 of the script): validity check and normalisation of mode and
scope, metadata-flag rewriting of the search, path and comment fields in that
order (stopping at the first failed substitution, which drops the rule), then
negation-flag processing of the search and path fields.  `none` means the rule
is not appended to `exclusions_map`. -/
def load_exclusion (components : List String) (meta : List (String × String)) :
    Option Exclusion :=
  if components.length > 3 then
    let mode0 := components.getD 0 ""
    let scope0 := components.getD 1 ""
    let path0 := components.getD 2 ""
    let search0 := components.getD 3 ""
    let comment0 : Option String :=
      if components.length > 4 then
        some (String.mk (pyTrimRight (String.intercalate "\t" (components.drop 4)).data))
      else none
    if valid_exclusion_modes.contains mode0 && valid_exclusion_scopes.contains scope0 then
      let mode := normalizeMode mode0
      let scope := normalizeScope scope0
      match rewriteField meta false search0 with
      | (search1, rr1, ok1) =>
        if ok1 then
          match rewriteField meta rr1 path0 with
          | (path1, rr2, ok2) =>
            if ok2 then
              match rewriteComment meta rr2 comment0 with
              | (comment1, _, ok3) =>
                if ok3 then
                  match negationField "search" search1 with
                  | (search2, negS) =>
                    match negationField "path" path1 with
                    | (path2, negP) =>
                      some ⟨mode, scope, path2, search2, comment1, negS ++ negP⟩
                else none
            else none
        else none
    else none
  else none

/-- Load a whole exclusions file (the per-line loop building `exclusions_map`);
invalid rules contribute nothing. -/
def load_exclusions (lineComponents : List (List String)) (meta : List (String × String)) :
    List Exclusion :=
  lineComponents.filterMap (fun comps => load_exclusion comps meta)

-- === Exclusion rule evaluation (lines 514-559) ===

/-- Abstract matcher standing for `re.search(pattern, text)` viewed as a Boolean
(`None` falsy / match truthy).  Rule evaluation uses patterns only through this. -/
abbrev Matcher := String → String → Bool

/-- One candidate file as seen by the evaluation loop. -/
structure Candidate where
  filename : String
  file_path : String
  file : String
  text_contents : String
deriving DecidableEq

/-- The scope text a rule's search pattern is tested against (lines 527-537). -/
def target_scope (excl : Exclusion) (c : Candidate) : String :=
  if excl.scope == "filepath" then c.file_path
  else if excl.scope == "fullpath" then c.file
  else if excl.scope == "contents" then c.text_contents
  else c.filename

/-- Path-filter gate (lines 517-524): a rule with a path filter applies only when
the (possibly negated) filter matches the containing directory. -/
def path_passes (m : Matcher) (excl : Exclusion) (c : Candidate) : Bool :=
  if excl.path != path_any then
    let fm := m excl.path c.file_path
    if excl.negated.contains "path" then !fm else fm
  else true

/-- The (possibly negated) search-pattern result on the scope text (lines 539-542). -/
def found_match (m : Matcher) (excl : Exclusion) (c : Candidate) : Bool :=
  let fm := m excl.search (target_scope excl c)
  if excl.negated.contains "search" then !fm else fm

/-- Whether this rule drops the candidate (line 544, gated by the path filter):
`(found_match and mode == exclude) or (not found_match and mode == include)`. -/
def rule_drops (m : Matcher) (excl : Exclusion) (c : Candidate) : Bool :=
  path_passes m excl c &&
    ((found_match m excl c && excl.mode == mode_exclude) ||
     (!found_match m excl c && excl.mode == mode_include))

/-- The evaluation loop over `exclusions_map` (lines 515-559): the first rule that
drops the candidate decides and the loop breaks; `none` means the file is kept. -/
def decide_exclusion (m : Matcher) (rules : List Exclusion) (c : Candidate) :
    Option Exclusion :=
  rules.find? (fun excl => rule_drops m excl c)

/-- `re.search` as it really behaves on a user-supplied pattern: compiling the
pattern may raise `re.error` (for instance on a pattern that begins with the
emptied inline-flag group `(?)` left behind by `pattern_strip_flag`, which
CPython rejects with `re.error: unknown extension ?)`).  The error is the
raised exception's message. -/
abbrev MatcherE := String → String → Except String Bool

/-- The search half of the loop body (lines 539-544) under a fallible matcher:
test the search pattern against the scope text (a raised `re.error` escapes
the per-file loop, whose `except` clause catches only `IOError`, and aborts
the run), negate if flagged, and decide the drop. -/
def rule_search_part (m : MatcherE) (excl : Exclusion) (c : Candidate) :
    Except String Bool :=
  match m excl.search (target_scope excl c) with
  | .error e => .error e
  | .ok fm0 =>
    let fm := if excl.negated.contains "search" then !fm0 else fm0
    .ok ((fm && (excl.mode == mode_exclude)) || (!fm && (excl.mode == mode_include)))

/-- One rule of the loop body (lines 517-544) under a fallible matcher: the path
filter (evaluated first, and also able to raise) gates the search test;
`.ok false` means this rule does not drop the candidate and the loop
continues, `.ok true` means it drops, `.error` aborts the run. -/
def rule_result_e (m : MatcherE) (excl : Exclusion) (c : Candidate) :
    Except String Bool :=
  if excl.path != path_any then
    match m excl.path c.file_path with
    | .error e => .error e
    | .ok fm0 =>
      let fm := if excl.negated.contains "path" then !fm0 else fm0
      if !fm then .ok false
      else rule_search_part m excl c
  else rule_search_part m excl c

/-- The evaluation loop under a fallible matcher: first decisive rule wins,
a raised pattern error aborts the whole run. -/
def decide_exclusion_e (m : MatcherE) : List Exclusion → Candidate →
    Except String (Option Exclusion)
  | [], _ => .ok none
  | excl :: rules, c =>
    match rule_result_e m excl c with
    | .error e => .error e
    | .ok true => .ok (some excl)
    | .ok false => decide_exclusion_e m rules c

-- === Title cleaning and slugs (`string_to_slug`, lines 64-78 and 111-131) ===

/-- The script's `string_to_slug`: strip quote characters, collapse non-word runs
to single spaces (`\W+`), collapse whitespace runs to single hyphens (`\s+`),
trim hyphens, lowercase. -/
def string_to_slug (text : String) : String :=
  let t1 := text.data.filter (fun c =>
    !(c == '\'' || c == '"' || c == '“' || c == '”' || c == '‘' || c == '’'))
  let t2 := collapseRuns (fun c => !isWordChar c) ' ' false t1
  let t3 := collapseRuns isPyWs '-' false t2
  let t4 := trimChar '-' t3
  String.mk (t4.map Char.toLower)

/-- Markdown link body match for `re.sub(r'\[([^\]]+)\]\([^)]+\)', r'\1', t)` at a
position directly after a `[`: returns the link text and the rest after `)`. -/
def linkAt (rest : List Char) : Option (List Char × List Char) :=
  let a := rest.takeWhile (· != ']')
  if a.isEmpty then none
  else
    match rest.drop a.length with
    | ']' :: '(' :: r2 =>
      let b := r2.takeWhile (· != ')')
      if b.isEmpty then none
      else
        match r2.drop b.length with
        | ')' :: after => some (a, after)
        | _ => none
    | _ => none

/-- Left-to-right non-overlapping replacement of Markdown links by their text.
`fuel` is an upper bound on steps (the input length suffices since every step
consumes at least one input character). -/
def removeLinks : Nat → List Char → List Char
  | 0, cs => cs
  | fuel + 1, cs =>
    match cs with
    | [] => []
    | '[' :: rest =>
      match linkAt rest with
      | some (a, after) => a ++ removeLinks fuel after
      | none => '[' :: removeLinks fuel rest
    | c :: rest => c :: removeLinks fuel rest

/-- Whether the text after a `{` completes a trailing attribute block
`{[^\}]+}\s*$`: nonempty brace-free content, a `}`, then only whitespace. -/
def attrTailAt (rest : List Char) : Bool :=
  let content := rest.takeWhile (· != '}')
  if content.isEmpty then false
  else
    match rest.drop content.length with
    | '}' :: tail => tail.all isPyWs
    | _ => false

/-- `re.sub(r'{[^\}]+}\s*$', '', t)`: cut the text from the leftmost `{` that
opens a trailing attribute block reaching the end of the string. -/
def removeTrailingAttr : List Char → List Char
  | [] => []
  | '{' :: rest => if attrTailAt rest then [] else '{' :: removeTrailingAttr rest
  | c :: rest => c :: removeTrailingAttr rest

/-- The title-cleaning pipeline of `generate_toc` (lines 117-122): remove the four
Markdown formatting characters, resolve links to their text, strip, remove a
trailing attribute block, strip. -/
def clean_title_of (title : String) : String :=
  let t1 := title.data.filter (fun c => !(c == '_' || c == '*' || c == '`' || c == '#'))
  let t2 := removeLinks t1.length t1
  let t3 := pyTrim t2
  let t4 := removeTrailingAttr t3
  String.mk (pyTrim t4)

-- === `#id` attribute extraction: re.search(r"\{.*?#(\S+).*?\}", title) ===

/-- Whether a `}` is reachable from here without crossing a newline
(the `.*?\}` continuation of the id-attribute pattern). -/
def braceReachable : List Char → Bool
  | [] => false
  | '}' :: _ => true
  | '\n' :: _ => false
  | _ :: rest => braceReachable rest

/-- Greedy `\S+` group backtracking: try group lengths from `t` down to 1,
accepting the longest for which the `.*?\}` continuation succeeds. -/
def idGroupTry (cs : List Char) : Nat → Option (List Char)
  | 0 => none
  | t + 1 =>
    if braceReachable (cs.drop (t + 1)) then some (cs.take (t + 1))
    else idGroupTry cs t

/-- Attempt the `#(\S+)` part at a position directly after a `#`. -/
def tryHashAt (cs : List Char) : Option (List Char) :=
  idGroupTry cs (cs.takeWhile (fun c => !isPyWs c)).length

/-- Lazy `.*?#` scan after a `{`: try each `#` in turn, left to right,
stopping at a newline. -/
def tryIdAt : List Char → Option (List Char)
  | [] => none
  | '\n' :: _ => none
  | '#' :: rest =>
    match tryHashAt rest with
    | some r => some r
    | none => tryIdAt rest
  | _ :: rest => tryIdAt rest

/-- Leftmost-match scan over starting positions (each must be a `{`). -/
def idScan : List Char → Option (List Char)
  | [] => none
  | '{' :: rest =>
    match tryIdAt rest with
    | some r => some r
    | none => idScan rest
  | _ :: rest => idScan rest

/-- The `#id` attribute override extracted from a heading title (lines 112-115). -/
def findIdOverride (title : String) : Option String :=
  (idScan title.data).map String.mk

-- === `.no-toc` / `.unlisted` skip: re.search(r"(?i)\.(no-?toc|unlisted)\b", title) ===

/-- Word-boundary test after a match whose final character is a word character. -/
def wordBoundaryAfter : List Char → Bool
  | [] => true
  | c :: _ => !isWordChar c

/-- Alternation `no-?toc|unlisted` (case-insensitive) with trailing `\b`,
attempted directly after a `.`. -/
def noTocAt (cs : List Char) : Bool :=
  (ciHasPre "no-toc".data cs && wordBoundaryAfter (cs.drop 6)) ||
  (ciHasPre "notoc".data cs && wordBoundaryAfter (cs.drop 5)) ||
  (ciHasPre "unlisted".data cs && wordBoundaryAfter (cs.drop 8))

/-- Scan for a `.` followed by the skip marker (line 130). -/
def noTocScan : List Char → Bool
  | [] => false
  | '.' :: rest => noTocAt rest || noTocScan rest
  | _ :: rest => noTocScan rest

-- === Heading scan: re.findall(r'^(#{start,depth})\s+(.+)', text, re.MULTILINE) ===

/-- ASCII string lowering (Python `str.lower()` on the ASCII range). -/
def strLower (s : String) : String :=
  String.mk (s.data.map Char.toLower)

/-- Try `(#{start,depth})\s+(.+)` at a line-start position: a leading `#` run of
length within `[start, depth]`, then at least one whitespace character (`\s`
also matches newlines, so the run may cross line ends), then the title: the
nonempty remainder of the line on which the whitespace run stops.  When the
whitespace run extends to the end of the text, Python's `\s+` backtracks as
little as possible, handing its last non-newline character to `(.+)` (needing
at least one whitespace character left, so the character's index `j` must be
at least 1).  Returns `(hash count, title, matched length)`. -/
def tryHeading (start depth : Nat) (cs : List Char) : Option (Nat × String × Nat) :=
  let m := (cs.takeWhile (· == '#')).length
  if start ≤ m ∧ m ≤ depth then
    let rest := cs.drop m
    let ws := rest.takeWhile isPyWs
    if 1 ≤ ws.length then
      let after := rest.drop ws.length
      let title := after.takeWhile (· != '\n')
      if !title.isEmpty then some (m, String.mk title, m + ws.length + title.length)
      else
        let t := (ws.reverse.takeWhile (· == '\n')).length
        let j := ws.length - 1 - t
        if 1 ≤ j then some (m, String.mk [ws.getD j ' '], m + j + 1)
        else none
    else none
  else none

/-- The scan of `re.findall(r'^(#{start,depth})\s+(.+)', text, re.MULTILINE)`:
walk the text left to right, trying the heading pattern at the string start
and after every newline, and resuming after each (non-overlapping) match.
`fuel` bounds the steps; the text length suffices since every step consumes
at least one character. -/
def headingScanAux (start depth : Nat) : Nat → List Char → Bool → List (Nat × String)
  | 0, _, _ => []
  | fuel + 1, cs, atStart =>
    match (if atStart then tryHeading start depth cs else none) with
    | some (m, title, len) =>
      (m, title) :: headingScanAux start depth fuel (cs.drop len) false
    | none =>
      match cs with
      | [] => []
      | c :: rest => headingScanAux start depth fuel rest (c == '\n')

/-- All `(hash-count, raw title)` heading pairs of the text, in document order. -/
def findHeadings (start depth : Nat) (text : String) : List (Nat × String) :=
  headingScanAux start depth (text.data.length + 1) text.data true

-- === generate_toc main loop state ===

/-- The mutable locals of `generate_toc`'s entry loop: `toc_lines`, `prev_level`,
`numbers_stack` (top at the end, as a Python list), `list_marker`, the leaked
loop variable `indent`, the entry counter `i`, and the warnings emitted so far. -/
structure TocState where
  lines : List String
  prev_level : Nat
  stack : List Nat
  marker : String
  indent : String
  i : Nat
  warnings : List String
deriving DecidableEq

/-- `"\t" * n`. -/
def tabs (n : Nat) : String :=
  String.mk (List.replicate n '\t')

/-- Python `toc_lines[-1] += s` (no-op on the empty list, which the modelled
control flow never reaches: Python would raise IndexError there). -/
def appendLast : List String → String → List String
  | [], _ => []
  | [x], s => [x ++ s]
  | x :: rest, s => x :: appendLast rest s

/-- Increment the top (last) counter of the numbers stack. -/
def incLast : List Nat → List Nat
  | [] => []
  | [x] => [x + 1]
  | x :: rest => x :: incLast rest

/-- Pop `n` counters off the top (end) of the numbers stack. -/
def popN : Nat → List Nat → List Nat
  | 0, xs => xs
  | n + 1, xs => popN n xs.dropLast

/-- One iteration of the level-jump filler loop (lines 140-147), carrying
`(toc_lines, indent)`. -/
def fillerStep (first asHtml : Bool) (tagStart : String)
    (st : List String × String) (x : Nat) : List String × String :=
  let indent := tabs (if first then x else x - 1)
  let lines :=
    if asHtml then
      (if first then st.1 ++ [""] else st.1) ++
        [indent ++ "\t" ++ tagStart ++ "\n" ++ indent ++ "\t\t<li>"]
    else st.1 ++ [indent ++ "- &nbsp;"]
  (lines, indent)

/-- One iteration of the HTML level-decrease close loop (lines 157-160). -/
def closeStep (tagEnd : String) (st : List String × String) (x : Nat) :
    List String × String :=
  let indent := tabs x
  (appendLast st.1 "</li>" ++ [indent ++ "\t" ++ tagEnd], indent)

/-- One iteration of the final HTML close loop (lines 192-195);
`tabs (x - 1)` is `""` at `x = 0`, matching Python's `"\t" * (-1)`. -/
def finalCloseStep (tagEnd : String) (st : List String × String) (x : Nat) :
    List String × String :=
  let indent := tabs (x - 1)
  (st.1 ++ [indent ++ "\t\t</li>\n" ++ indent ++ "\t" ++ tagEnd ++ "\n"], indent)

/-- The body of `generate_toc`'s `for hashes, title in headings:` loop
(lines 107-190), as a fold step over one `(hash-count, title)` pair. -/
def toc_step (start : Nat) (ordered plain asHtml : Bool) (tagStart tagEnd : String)
    (st : TocState) (h : Nat × String) : TocState :=
  let title := h.2
  let first := st.i == 0
  let id_override := findIdOverride title
  let ct := clean_title_of title
  let slug :=
    match id_override with
    | some s => s
    | none => string_to_slug ct
  if noTocScan title.data then st
  else
    let level := h.1 - start
    let indent := tabs level
    let branches :=
      if level > st.prev_level ∧ (level - st.prev_level > 1 ∨ first = true) then
        let w := "ToC entry jumps from heading level " ++ Nat.repr (st.prev_level + 1) ++
          " to " ++ Nat.repr (level + 1) ++ ": " ++ ct
        let range_start := if first then st.prev_level else st.prev_level + 1
        let fl := (List.range' range_start (level - range_start)).foldl
          (fillerStep first asHtml tagStart) (st.lines, indent)
        let ind := if first then fl.2 ++ "\t" else fl.2
        (fl.1, ind, st.warnings ++ [w])
      else if asHtml ∧ level > st.prev_level then
        (st.lines ++ [indent ++ tagStart ++ "\n" ++ indent ++ "\t<li>"], indent, st.warnings)
      else if asHtml ∧ level = st.prev_level then
        (if first then st.lines
         else appendLast st.lines "</li>" ++ [indent ++ "\t<li>"], indent, st.warnings)
      else if asHtml then
        let cl := (List.range' level (st.prev_level - level)).foldl
          (closeStep tagEnd) (st.lines, indent)
        (cl.1 ++ [cl.2 ++ "\t</li>", cl.2 ++ "\t<li>"], cl.2, st.warnings)
      else (st.lines, indent, st.warnings)
    let lines1 := branches.1
    let indent1 := branches.2.1
    let warns1 := branches.2.2
    let numbers :=
      if ordered then
        let s :=
          if level = st.prev_level then incLast st.stack
          else if level > st.prev_level then
            st.stack ++ List.replicate (level - st.prev_level) 1
          else popN (st.prev_level - level) st.stack
        (s, Nat.repr (s.getLastD 0) ++ ".")
      else (st.stack, st.marker)
    let stack1 := numbers.1
    let marker1 := numbers.2
    let lines2 :=
      if asHtml then
        let base := if first ∧ lines1 = [] then lines1 ++ [""] else lines1
        if plain then
          appendLast base ("<a href=\"#" ++ slug ++ "\">" ++ ct ++ "</a>")
        else
          appendLast base ("<a href=\"#" ++ slug ++ "\" class=\"section-title\">" ++ ct ++
            "</a><a href=\"#" ++ slug ++ "\" class=\"page-number\"></a>")
      else
        if plain then
          lines1 ++ [indent1 ++ marker1 ++ " [" ++ ct ++ "](#" ++ slug ++ ")"]
        else
          lines1 ++ [indent1 ++ marker1 ++ " [" ++ ct ++ "](#" ++ slug ++
            ")\x7b.section-title\x7d[](#" ++ slug ++ ")\x7b.page-number\x7d"]
    ⟨lines2, level, stack1, marker1, indent1, st.i + 1, warns1⟩

/-- Run the entry loop over all headings from the initial state
(`toc_lines = []`, `prev_level = 0`, `numbers_stack = [0]`, `list_marker = "-"`). -/
def toc_run (start : Nat) (ordered plain asHtml : Bool) (tagStart tagEnd : String)
    (headings : List (Nat × String)) : TocState :=
  headings.foldl (toc_step start ordered plain asHtml tagStart tagEnd)
    ⟨[], 0, [0], "-", "", 0, []⟩

/-- The value of `generate_toc`: the rendered text, the classes list as it stands
after the call (the script appends `"toc"` to the caller-supplied mutable list),
and the warnings emitted. -/
structure GenResult where
  text : String
  classes : List String
  warnings : List String
deriving DecidableEq

/-- The body of `generate_toc` once the heading regex has compiled (everything
past line 93 of the script); total, since the remaining code cannot raise.
With no headings it returns `""` early, before `classes.append("toc")`. -/
def generate_toc_core (markdown_text : String) (start depth : Nat) (ordered plain : Bool)
    (output : String) (classes : List String) : Except String GenResult :=
  let headings := findHeadings start depth markdown_text
  if headings.isEmpty then .ok ⟨"", classes, []⟩
  else
      let asHtml := strLower output != "markdown"
      let tag_name := if ordered then "ol" else "ul"
      let tagStart := "<" ++ tag_name ++ ">"
      let tagEnd := "</" ++ tag_name ++ ">"
      let st := toc_run start ordered plain asHtml tagStart tagEnd headings
      -- When every heading was skipped (st.i = 0) the loop never assigned
      -- `indent`, and the HTML wrappers (lines 201/203) read it: Python raises
      -- UnboundLocalError there, aborting the run.  Markdown output never
      -- reads `indent` after the loop.
      if asHtml ∧ st.i = 0 then
        .error "UnboundLocalError: cannot access local variable 'indent'"
      else
        let fin :=
          if asHtml ∧ st.prev_level > 0 then
            (List.range' 0 st.prev_level).foldl (finalCloseStep tagEnd) (st.lines, st.indent)
          else (st.lines, st.indent)
        let toc0 := String.intercalate "\n" fin.1
        let classes2 := classes ++ ["toc"]
        let toc :=
          if asHtml then
            if plain then
              tagStart ++ "\n\t<li>" ++ toc0 ++ fin.2 ++ "</li>\n" ++ tagEnd
            else
              "<" ++ tag_name ++ " class=\"" ++ String.intercalate " " classes2 ++
                "\">\n\t<li>" ++ toc0 ++ fin.2 ++ "</li>\n" ++ tagEnd
          else
            if !plain then "\x7b." ++ String.intercalate " ." classes2 ++ "\x7d\n" ++ toc0
            else toc0
        .ok ⟨toc, classes2, st.warnings⟩

/-- The script's `generate_toc(markdown_text, start, depth, ordered, plain, output,
classes)`.  Compiling the heading regex `^(#{start,depth})\s+(.+)` raises
`OverflowError: the repetition number is too large` when `start` or `depth` is
at least `sre`'s MAXREPEAT (4294967295, the bound on `min` checked before the
one on `max`), and `re.error: min repeat greater than max repeat` when
`depth < start`; both uncaught exceptions abort the run and are modelled as
`Except.error`. -/
def generate_toc (markdown_text : String) (start depth : Nat) (ordered plain : Bool)
    (output : String) (classes : List String) : Except String GenResult :=
  if 4294967295 ≤ start then .error "OverflowError: the repetition number is too large"
  else if 4294967295 ≤ depth then
    .error "OverflowError: the repetition number is too large"
  else if depth < start then .error "re.error: min repeat greater than max repeat"
  else generate_toc_core markdown_text start depth ordered plain output classes

-- === Observation helpers for rendered Markdown outline lines ===

/-- The list marker of a rendered Markdown entry line: the text between the
leading tabs and the first space. -/
def entryMarker (line : String) : String :=
  String.mk ((line.data.dropWhile (· == '\t')).takeWhile (· != ' '))

/-- Indentation depth of a rendered line (number of leading tabs). -/
def leadingTabs (line : String) : Nat :=
  (line.data.takeWhile (· == '\t')).length

/-- Whether a rendered Markdown line is level-jump filler (`- &nbsp;`). -/
def isFillerLine (line : String) : Bool :=
  line.data.dropWhile (· == '\t') == "- &nbsp;".data

/-- Indentation depths of the non-filler (real entry) lines. -/
def entryIndentLevels (lines : List String) : List Nat :=
  (lines.filter (fun l => !isFillerLine l)).map leadingTabs

-- === ToC directive parsing (toc_replace, lines 217-247) ===

/-- Digits to a natural number (Python `int` on a `\d+` group). -/
def natFromDigits (ds : List Char) : Nat :=
  ds.foldl (fun n c => n * 10 + (c.toNat - 48)) 0

/-- `re.search(r"(?i)KEY['\"]?(\d+)['\"]?", s)` for a literal lowercase `KEY`
ending in `=`: leftmost occurrence of the key followed by an optional quote
and at least one digit; the digit run is the group. -/
def findNumParam (key : List Char) : List Char → Option Nat
  | [] => none
  | c :: rest =>
    let cs := c :: rest
    if ciHasPre key cs then
      let after := cs.drop key.length
      let body :=
        match after with
        | q :: r => if q == '\'' || q == '"' then r.takeWhile Char.isDigit
                    else after.takeWhile Char.isDigit
        | [] => []
      if !body.isEmpty then some (natFromDigits body) else findNumParam key rest
    else findNumParam key rest

/-- `re.search(r"(?i)\b(?<!\.)WORD\b", s)` for a literal all-letter `WORD`:
an occurrence whose preceding character is neither a word character nor a
dot (or which starts the string), with a word boundary after it. -/
def wordParamScan (word : List Char) (prev : Option Char) : List Char → Bool
  | [] => false
  | c :: rest =>
    let cs := c :: rest
    let okBefore :=
      match prev with
      | none => true
      | some p => !isWordChar p && p != '.'
    (ciHasPre word cs && okBefore && wordBoundaryAfter (cs.drop word.length)) ||
      wordParamScan word (some c) rest

/-- `re.finditer(r"\.(\S+)", s)`: all non-overlapping class tokens, scanning left
to right and resuming after each match.  `fuel` bounds the steps (the input
length suffices). -/
def classTokensScan : Nat → List Char → List String
  | 0, _ => []
  | fuel + 1, cs =>
    match cs with
    | [] => []
    | '.' :: rest =>
      let run := rest.takeWhile (fun c => !isPyWs c)
      if run.isEmpty then classTokensScan fuel rest
      else String.mk run :: classTokensScan fuel (rest.drop run.length)
    | _ :: rest => classTokensScan fuel rest

/-- `re.search(r"(?i)output=['\"]?(\S+)['\"]?", s)`: the greedy `\S+` group after
the optional quote; when a quote is present but followed by whitespace the
optional quote backtracks and the group starts at the quote itself. -/
def findOutputParam : List Char → Option String
  | [] => none
  | c :: rest =>
    let cs := c :: rest
    if ciHasPre "output=".data cs then
      let after := cs.drop 7
      let viaQuote :=
        match after with
        | q :: r => if q == '\'' || q == '"' then some (r.takeWhile (fun x => !isPyWs x))
                    else none
        | [] => none
      match viaQuote with
      | some d =>
        if !d.isEmpty then some (String.mk d)
        else
          let d2 := after.takeWhile (fun x => !isPyWs x)
          if !d2.isEmpty then some (String.mk d2) else findOutputParam rest
      | none =>
        let d2 := after.takeWhile (fun x => !isPyWs x)
        if !d2.isEmpty then some (String.mk d2) else findOutputParam rest
    else findOutputParam rest

/-- The parameters parsed by `toc_replace` from the directive's option group. -/
structure TocParams where
  depth : Nat
  start : Nat
  all : Bool
  ordered : Bool
  plain : Bool
  classes : List String
  output : String
deriving DecidableEq

/-- Parameter parsing of `toc_replace` (lines 220-245): defaults
`depth=3, start=1, ordered, not plain, not all, output="markdown"`;
`start` is clamped to at least 1, `depth` is not validated. -/
def parseTocParams : Option (List Char) → TocParams
  | none => ⟨3, 1, false, true, false, [], "markdown"⟩
  | some g =>
    { depth := (findNumParam "depth=".data g).getD 3
      start := max ((findNumParam "start=".data g).getD 1) 1
      all := wordParamScan "all".data none g
      ordered := !(wordParamScan "unordered".data none g)
      plain := wordParamScan "plain".data none g
      classes := classTokensScan g.length g
      output := (findOutputParam g).getD "markdown" }

-- === Directive matching: (?im)^{toc(?:\s+([^\}]+?)\s*)?} ===

/-- Try the directive pattern at the current position (which the caller
guarantees to be a line start).  Returns `(k, group1)` where `k` is the length
of the text strictly between `toc` and the first `}` (so the whole match has
length `k + 5`).  The option group needs at least one whitespace character,
then a lazy nonempty brace-free body followed by optional whitespace
before the `}`; when everything between is whitespace the lazy body
backtracks to the final whitespace character. -/
def tryToc : List Char → Option (Nat × Option (List Char))
  | '{' :: c1 :: c2 :: c3 :: rest =>
    if c1.toLower == 't' && c2.toLower == 'o' && c3.toLower == 'c' then
      match List.findIdx? (fun c => c == '}') rest with
      | none => none
      | some k =>
        let mid := rest.take k
        match mid with
        | [] => some (0, none)
        | m0 :: _ =>
          if isPyWs m0 then
            if mid.all isPyWs then
              if 2 ≤ mid.length then
                match mid.getLast? with
                | some c => some (k, some [c])
                | none => none
              else none
            else some (k, some (pyTrim mid))
          else none
    else none
  | _ => none

/-- The script's `toc_replace` on one directive match of the original text
`orig`: parse the options, then render the ToC over the text from the match
end (or from position 0 under `all`). -/
def toc_replace (orig : List Char) (endPos : Nat) (g : Option (List Char)) :
    Except String GenResult :=
  let p := parseTocParams g
  let start_pos := if p.all then 0 else endPos
  generate_toc (String.mk (orig.drop start_pos)) p.start p.depth p.ordered p.plain
    p.output p.classes

/-- The scanning loop of `re.sub(toc_pattern, toc_replace, text)` in
`process_toc`: walk the text left to right, keep non-matching characters, and
at every line start try the directive pattern; each match is replaced by
`toc_replace` evaluated against the original text (`the_match.string`), and
scanning resumes after the match (never inside a replacement).  `fuel` bounds
the steps; the text length suffices since every step consumes at least one
character.  An exception from a replacement aborts the whole substitution. -/
def subScanAux (orig : List Char) : Nat → List Char → Nat → Bool → Except String (List Char)
  | 0, cs, _, _ => .ok cs
  | fuel + 1, cs, pos, atStart =>
    match (if atStart then tryToc cs else none) with
    | some (k, g) =>
      match toc_replace orig (pos + (k + 5)) g with
      | .error e => .error e
      | .ok rep =>
        match subScanAux orig fuel (cs.drop (k + 5)) (pos + (k + 5)) false with
        | .error e => .error e
        | .ok t => .ok (rep.text.data ++ t)
    | none =>
      match cs with
      | [] => .ok []
      | c :: rest =>
        match subScanAux orig fuel rest (pos + 1) (c == '\n') with
        | .error e => .error e
        | .ok t => .ok (c :: t)

/-- The script's `process_toc(text)`: one global substitution pass. -/
def process_toc (text : String) : Except String String :=
  match subScanAux text.data text.data.length text.data 0 true with
  | .error e => .error e
  | .ok cs => .ok (String.mk cs)

/-- The same scan as `subScanAux`, but merely collecting the matches
`(start, length, group1)` instead of building the output. -/
def tocMatchesAux : Nat → List Char → Nat → Bool → List (Nat × Nat × Option (List Char))
  | 0, _, _, _ => []
  | fuel + 1, cs, pos, atStart =>
    match (if atStart then tryToc cs else none) with
    | some (k, g) =>
      (pos, k + 5, g) :: tocMatchesAux fuel (cs.drop (k + 5)) (pos + (k + 5)) false
    | none =>
      match cs with
      | [] => []
      | c :: rest => tocMatchesAux fuel rest (pos + 1) (c == '\n')

/-- All directive matches of a text, in document order. -/
def toc_matches (text : String) : List (Nat × Nat × Option (List Char)) :=
  tocMatchesAux text.data.length text.data 0 true

/-- Splice independently computed replacements into the text: for each match,
keep the segment before it, insert `toc_replace` computed from the original
text `orig` and the match alone, and continue after the match.  `pos` is the
absolute position of the current suffix `cs`. -/
def spliceGo (orig : List Char) :
    List (Nat × Nat × Option (List Char)) → Nat → List Char → Except String (List Char)
  | [], _, cs => .ok cs
  | (s, n, g) :: ms, pos, cs =>
    match toc_replace orig (s + n) g with
    | .error e => .error e
    | .ok rep =>
      match spliceGo orig ms (s + n) (cs.drop (s + n - pos)) with
      | .error e => .error e
      | .ok t => .ok (cs.take (s - pos) ++ rep.text.data ++ t)

/-- Independent directive expansion, following the specification: every
directive is replaced by the outline computed over its own remaining text of
the ORIGINAL document (under `all`, over the whole original document), so each
directive's replacement is a function of the original text and that match
alone, unaffected by the replacements of the other directives. -/
def independent_expand (text : String) : Except String String :=
  match spliceGo text.data (toc_matches text) 0 text.data with
  | .error e => .error e
  | .ok cs => .ok (String.mk cs)

/-- Whether a text contains a line-anchored ToC directive. -/
def has_toc_directive (text : String) : Bool :=
  !(toc_matches text).isEmpty

deriving instance DecidableEq for Except

/-- Concrete matcher used by witnesses: the pattern matches exactly when it
equals the scope text (a special case of `re.search` on fully anchored
literal patterns). -/
def eqMatcher : Matcher := fun p s => p == s

def rulesW : List Exclusion := [⟨"exclude", "filename", "*", "a.md", none, []⟩]
def restW : List Exclusion := [⟨"include", "filename", "*", "z.md", none, []⟩]
def candW : Candidate := ⟨"a.md", "dir", "dir/a.md", "body"⟩
def exclW3 : Exclusion := ⟨"exclude", "filename", "*", "hello", none, ["search"]⟩
def candW3 : Candidate := ⟨"hello", "d", "d/hello", "txt"⟩

/-- Concrete fallible matcher used by witnesses, behaving as CPython's
`re.search` on the patterns involved: it raises on the invalid residue
`(?)Foo` and otherwise matches fully anchored literal patterns. -/
def errMatcherW : MatcherE := fun p s =>
  if p == "(?)Foo" then .error "re.error: unknown extension ?) at position 1"
  else .ok (p == s)

-- === Helper lemmas for the directive-expansion scan ===

/-- Definitional unfolding of `tocMatchesAux` at successor fuel. -/
theorem tocMatchesAux_succ (fuel : Nat) (cs : List Char) (pos : Nat) (b : Bool) :
    tocMatchesAux (fuel + 1) cs pos b =
      match (if b then tryToc cs else none) with
      | some (k, g) =>
        (pos, k + 5, g) :: tocMatchesAux fuel (cs.drop (k + 5)) (pos + (k + 5)) false
      | none =>
        match cs with
        | [] => []
        | c :: rest => tocMatchesAux fuel rest (pos + 1) (c == '\n') := rfl

/-- Definitional unfolding of `subScanAux` at successor fuel. -/
theorem subScanAux_succ (orig : List Char) (fuel : Nat) (cs : List Char) (pos : Nat)
    (b : Bool) :
    subScanAux orig (fuel + 1) cs pos b =
      match (if b then tryToc cs else none) with
      | some (k, g) =>
        match toc_replace orig (pos + (k + 5)) g with
        | .error e => .error e
        | .ok rep =>
          match subScanAux orig fuel (cs.drop (k + 5)) (pos + (k + 5)) false with
          | .error e => .error e
          | .ok t => .ok (rep.text.data ++ t)
      | none =>
        match cs with
        | [] => .ok []
        | c :: rest =>
          match subScanAux orig fuel rest (pos + 1) (c == '\n') with
          | .error e => .error e
          | .ok t => .ok (c :: t) := rfl

/-- Definitional unfolding of `substTokensFuel` at successor fuel. -/
theorem substTokensFuel_succ (meta : List (String × String)) (fuel : Nat)
    (s : List Char) :
    substTokensFuel meta (fuel + 1) s =
      match findToken s 0 with
      | none => some s
      | some (i, j, key) =>
        match metaLookup meta (String.mk key) with
        | some v => substTokensFuel meta fuel (s.take i ++ v.data ++ s.drop (j + 1))
        | none => none := rfl

/-- A record lacking `title` makes the substitution of `(?)%title%` fail at its
first iteration, whatever the fuel. -/
theorem subst_meta_title_missing (meta : List (String × String))
    (h : metaLookup meta "title" = none) :
    subst_meta meta "(?)%title%" = none := by
  have hstep : ∀ fuel : Nat,
      substTokensFuel meta (fuel + 1) "(?)%title%".data = none := by
    intro fuel
    rw [substTokensFuel_succ,
      show findToken "(?)%title%".data 0 = some (3, 9, "title".data) from by decide]
    show (match metaLookup meta "title" with
          | some v => substTokensFuel meta fuel
              ("(?)%title%".data.take 3 ++ v.data ++ "(?)%title%".data.drop (9 + 1))
          | none => none) = none
    rw [h]
  simp only [subst_meta, hstep]

/-- A record lacking `title` drops the rule `(?M)%title%` at load time
(`valid_rule = False`, never appended to `exclusions_map`). -/
theorem load_exclusion_title_missing (meta : List (String × String))
    (h : metaLookup meta "title" = none) :
    load_exclusion ["exclude", "filename", "*", "(?M)%title%"] meta = none := by
  have hrw : rewriteField meta false "(?M)%title%" =
      (match subst_meta meta "(?)%title%" with
       | some v2 => (v2, true, true)
       | none => ("(?)%title%", true, false)) := rfl
  have hfield : rewriteField meta false "(?M)%title%" = ("(?)%title%", true, false) := by
    rw [hrw, subst_meta_title_missing meta h]
  show (match rewriteField meta false "(?M)%title%" with
        | (search1, rr1, ok1) =>
          if ok1 then
            match rewriteField meta rr1 "*" with
            | (path1, rr2, ok2) =>
              if ok2 then
                match rewriteComment meta rr2 none with
                | (comment1, _, ok3) =>
                  if ok3 then
                    match negationField "search" search1 with
                    | (search2, negS) =>
                      match negationField "path" path1 with
                      | (path2, negP) =>
                        some (⟨"exclude", "filename", path2, search2, comment1,
                          negS ++ negP⟩ : Exclusion)
                  else none
              else none
          else none) = none
  rw [hfield]
  rfl

/-- Definitional unfolding of `spliceGo` at a cons of matches. -/
theorem spliceGo_cons_eq (orig : List Char) (s n : Nat) (g : Option (List Char))
    (ms : List (Nat × Nat × Option (List Char))) (pos : Nat) (cs : List Char) :
    spliceGo orig ((s, n, g) :: ms) pos cs =
      match toc_replace orig (s + n) g with
      | .error e => .error e
      | .ok rep =>
        match spliceGo orig ms (s + n) (cs.drop (s + n - pos)) with
        | .error e => .error e
        | .ok t => .ok (cs.take (s - pos) ++ rep.text.data ++ t) := rfl

/-- Every match reported by the scanner starts at or after the scan position. -/
theorem tocMatchesAux_head_ge (fuel : Nat) :
    ∀ (cs : List Char) (pos : Nat) (b : Bool) (s n : Nat) (g : Option (List Char))
      (ms : List (Nat × Nat × Option (List Char))),
      tocMatchesAux fuel cs pos b = (s, n, g) :: ms → pos ≤ s := by
  induction fuel with
  | zero =>
    intro cs pos b s n g ms h
    simp [tocMatchesAux] at h
  | succ fuel ih =>
    intro cs pos b s n g ms h
    rw [tocMatchesAux_succ] at h
    cases hm : (if b then tryToc cs else none) with
    | some kg =>
      rw [hm] at h
      obtain ⟨k, g'⟩ := kg
      simp only [List.cons.injEq, Prod.mk.injEq] at h
      exact h.1.1.le
    | none =>
      rw [hm] at h
      cases cs with
      | nil => simp at h
      | cons c rest =>
        exact Nat.le_of_succ_le (ih rest (pos + 1) (c == '\n') s n g ms h)

/-- Splicing commutes with peeling one character off the front of the suffix
when every match lies strictly beyond the current position. -/
theorem spliceGo_cons (orig : List Char)
    (ms : List (Nat × Nat × Option (List Char))) (pos : Nat) (c : Char)
    (rest : List Char)
    (hge : ∀ s n g tl, ms = (s, n, g) :: tl → pos + 1 ≤ s) :
    spliceGo orig ms pos (c :: rest) =
      match spliceGo orig ms (pos + 1) rest with
      | .error e => .error e
      | .ok t => .ok (c :: t) := by
  cases ms with
  | nil => simp [spliceGo]
  | cons hd tl =>
    obtain ⟨s, n, g⟩ := hd
    have hs : pos + 1 ≤ s := hge s n g tl rfl
    have h1 : s - pos = (s - (pos + 1)) + 1 := by omega
    have h2 : s + n - pos = (s + n - (pos + 1)) + 1 := by omega
    unfold spliceGo
    rw [h1, h2, List.take_succ_cons, List.drop_succ_cons]
    cases toc_replace orig (s + n) g with
    | error e => rfl
    | ok rep =>
      cases spliceGo orig tl (s + n) (rest.drop (s + n - (pos + 1))) with
      | error e => rfl
      | ok t => rfl

/-- The incremental `re.sub` scan computes exactly the independent splice of the
matches it collects: every replacement is a function of the original text and
the match alone. -/
theorem subScanAux_eq_spliceGo (orig : List Char) (fuel : Nat) :
    ∀ (cs : List Char) (pos : Nat) (b : Bool), cs.length ≤ fuel →
      subScanAux orig fuel cs pos b =
        spliceGo orig (tocMatchesAux fuel cs pos b) pos cs := by
  induction fuel with
  | zero =>
    intro cs pos b hle
    have hnil : cs = [] := List.length_eq_zero.mp (Nat.le_zero.mp hle)
    subst hnil
    simp [subScanAux, tocMatchesAux, spliceGo]
  | succ fuel ih =>
    intro cs pos b hle
    cases hm : (if b then tryToc cs else none) with
    | some kg =>
      obtain ⟨k, g⟩ := kg
      have e1 : subScanAux orig (fuel + 1) cs pos b =
          match toc_replace orig (pos + (k + 5)) g with
          | .error e => .error e
          | .ok rep =>
            match subScanAux orig fuel (cs.drop (k + 5)) (pos + (k + 5)) false with
            | .error e => .error e
            | .ok t => .ok (rep.text.data ++ t) := by
        rw [subScanAux_succ, hm]
      have e2 : tocMatchesAux (fuel + 1) cs pos b =
          (pos, k + 5, g) :: tocMatchesAux fuel (cs.drop (k + 5)) (pos + (k + 5)) false := by
        rw [tocMatchesAux_succ, hm]
      have hlen : (cs.drop (k + 5)).length ≤ fuel := by
        rw [List.length_drop]
        omega
      rw [e1, e2, ih (cs.drop (k + 5)) (pos + (k + 5)) false hlen]
      have h0 : pos - pos = 0 := Nat.sub_self pos
      have h5 : pos + (k + 5) - pos = k + 5 := by omega
      rw [spliceGo_cons_eq, h0, h5, List.take_zero]
      cases toc_replace orig (pos + (k + 5)) g with
      | error e => rfl
      | ok rep =>
        cases spliceGo orig (tocMatchesAux fuel (cs.drop (k + 5)) (pos + (k + 5)) false)
            (pos + (k + 5)) (cs.drop (k + 5)) with
        | error e => rfl
        | ok t => simp
    | none =>
      cases cs with
      | nil =>
        have e1 : subScanAux orig (fuel + 1) [] pos b = .ok [] := by
          rw [subScanAux_succ, hm]
        have e2 : tocMatchesAux (fuel + 1) [] pos b = [] := by
          rw [tocMatchesAux_succ, hm]
        rw [e1, e2]
        rfl
      | cons c rest =>
        have e1 : subScanAux orig (fuel + 1) (c :: rest) pos b =
            match subScanAux orig fuel rest (pos + 1) (c == '\n') with
            | .error e => .error e
            | .ok t => .ok (c :: t) := by
          rw [subScanAux_succ, hm]
        have e2 : tocMatchesAux (fuel + 1) (c :: rest) pos b =
            tocMatchesAux fuel rest (pos + 1) (c == '\n') := by
          rw [tocMatchesAux_succ, hm]
        have hlen : rest.length ≤ fuel := by
          simp at hle
          omega
        rw [e1, e2, ih rest (pos + 1) (c == '\n') hlen]
        rw [spliceGo_cons orig (tocMatchesAux fuel rest (pos + 1) (c == '\n')) pos c rest
          (fun s n g tl hh => tocMatchesAux_head_ge fuel rest (pos + 1) (c == '\n') s n g tl hh)]

/-- A text with no line-anchored directive passes through `process_toc` unchanged. -/
theorem process_toc_of_no_directive (s : String) (h : has_toc_directive s = false) :
    process_toc s = .ok s := by
  have hm : tocMatchesAux s.data.length s.data 0 true = [] := by
    have := h
    unfold has_toc_directive toc_matches at this
    simpa using List.isEmpty_iff.mp (by simpa using this)
  unfold process_toc
  rw [subScanAux_eq_spliceGo s.data s.data.length s.data 0 true (Nat.le_refl _), hm]
  rfl

/-- Necessity: when `generate_toc` returns a rendering (instead of raising),
the repeat bounds of its heading regex were ordered. -/
theorem generate_toc_isOk_le (text : String) (start depth : Nat) (ordered plain : Bool)
    (output : String) (classes : List String)
    (hok : (generate_toc text start depth ordered plain output classes).isOk = true) :
    start ≤ depth := by
  unfold generate_toc at hok
  by_cases h1 : 4294967295 ≤ start
  · rw [if_pos h1] at hok
    exact absurd hok (by decide)
  · rw [if_neg h1] at hok
    by_cases h2 : 4294967295 ≤ depth
    · rw [if_pos h2] at hok
      exact absurd hok (by decide)
    · rw [if_neg h2] at hok
      by_cases h3 : depth < start
      · rw [if_pos h3] at hok
        exact absurd hok (by decide)
      · omega

/-- A heading regex with `depth < start` never compiles: `generate_toc` raises
(an `OverflowError` when `start` also exceeds MAXREPEAT, the min-repeat
`re.error` otherwise). -/
theorem generate_toc_not_ok_of_lt (text : String) (start depth : Nat)
    (ordered plain : Bool) (output : String) (classes : List String)
    (hlt : depth < start) :
    (generate_toc text start depth ordered plain output classes).isOk = false := by
  unfold generate_toc
  by_cases h1 : 4294967295 ≤ start
  · rw [if_pos h1]
    rfl
  · rw [if_neg h1]
    by_cases h2 : 4294967295 ≤ depth
    · rw [if_pos h2]
      rfl
    · rw [if_neg h2, if_pos hlt]
      rfl

-- === Claim theorems ===

/-- Claim C1, counterexample: the metadata rewrite of the rule `(?M)%title%`
against the record `{title: "Foo"}` does not yield the literal rule `Foo`: the
stripping of the flag letter leaves the emptied inline-flag group in place, so
the active rule's search pattern is `(?)Foo` (which Python's `re` rejects with
`re.error: unknown extension ?)` at evaluation time, aborting the run), not
`Foo`; hence the rule does not decide candidates as the literal rule would. -/
theorem c1_metadata_literal_counterexample :
    load_exclusion ["exclude", "filename", "*", "(?M)%title%"] [("title", "Foo")] ≠
      load_exclusion ["exclude", "filename", "*", "Foo"] [("title", "Foo")] ∧
    (load_exclusion ["exclude", "filename", "*", "(?M)%title%"] [("title", "Foo")]).map
      Exclusion.search = some "(?)Foo" := by
  constructor
  · decide
  · decide

/-- Claim C1, amended: loading the rule `(?M)%title%` against `{title: "Foo"}`
yields an active rule whose search pattern is `(?)Foo` — the `%title%` token is
substituted but the emptied inline-flag group remains — so the rule does not
behave as the literal rule `Foo`: under any `re.search` semantics that rejects
the residue `(?)Foo` (CPython raises `re.error: unknown extension ?)` there),
evaluating the rule against any candidate re-raises that error and aborts the
run instead of deciding.  For EVERY metadata record lacking the key `title`,
the rule is dropped from the active rule set at load time with a warning and
never decides any candidate. -/
theorem c1_metadata_substitution_amended :
    load_exclusion ["exclude", "filename", "*", "(?M)%title%"] [("title", "Foo")] =
      some ⟨"exclude", "filename", "*", "(?)Foo", none, []⟩ ∧
    (∀ (m : MatcherE) (c : Candidate) (err : String),
      m "(?)Foo" c.filename = .error err →
      decide_exclusion_e m
        (load_exclusions [["exclude", "filename", "*", "(?M)%title%"]] [("title", "Foo")])
        c = .error err) ∧
    (∀ meta : List (String × String), metaLookup meta "title" = none →
      load_exclusion ["exclude", "filename", "*", "(?M)%title%"] meta = none) ∧
    (∀ (meta : List (String × String)) (m : MatcherE) (c : Candidate),
      metaLookup meta "title" = none →
      decide_exclusion_e m
        (load_exclusions [["exclude", "filename", "*", "(?M)%title%"]] meta) c =
        .ok none) := by
  refine ⟨by decide, ?_, ?_, ?_⟩
  · intro m c err hm
    have hR : load_exclusions [["exclude", "filename", "*", "(?M)%title%"]]
        [("title", "Foo")] = [⟨"exclude", "filename", "*", "(?)Foo", none, []⟩] := by
      decide
    rw [hR]
    have hloop : decide_exclusion_e m [⟨"exclude", "filename", "*", "(?)Foo", none, []⟩]
        c =
        (match rule_result_e m ⟨"exclude", "filename", "*", "(?)Foo", none, []⟩ c with
         | .error e => .error e
         | .ok true => .ok (some ⟨"exclude", "filename", "*", "(?)Foo", none, []⟩)
         | .ok false => decide_exclusion_e m [] c) := rfl
    have hrule0 : rule_result_e m ⟨"exclude", "filename", "*", "(?)Foo", none, []⟩ c =
        rule_search_part m ⟨"exclude", "filename", "*", "(?)Foo", none, []⟩ c := rfl
    have hsearch : rule_search_part m ⟨"exclude", "filename", "*", "(?)Foo", none, []⟩
        c =
        (match m "(?)Foo" c.filename with
         | .error e => .error e
         | .ok fm0 => .ok ((fm0 && true) || (!fm0 && false))) := rfl
    rw [hloop, hrule0, hsearch, hm]
  · intro meta h
    exact load_exclusion_title_missing meta h
  · intro meta m c h
    have hl : load_exclusions [["exclude", "filename", "*", "(?M)%title%"]] meta = [] := by
      simp [load_exclusions, load_exclusion_title_missing meta h]
    rw [hl]
    rfl

/-- Witness for C1's amended theorem: under the CPython-like matcher that raises
on `(?)Foo`, evaluating the loaded rule against a concrete candidate aborts
with that error; the record `{author: "X"}` lacks `title`, so the rule is
dropped and the resulting (empty) active rule set decides nothing. -/
theorem c1_metadata_substitution_amended_witness :
    decide_exclusion_e errMatcherW
      (load_exclusions [["exclude", "filename", "*", "(?M)%title%"]] [("title", "Foo")])
      candW = .error "re.error: unknown extension ?) at position 1" ∧
    load_exclusion ["exclude", "filename", "*", "(?M)%title%"] [("author", "X")] = none ∧
    decide_exclusion_e errMatcherW
      (load_exclusions [["exclude", "filename", "*", "(?M)%title%"]] [("author", "X")])
      candW = .ok none :=
  ⟨c1_metadata_substitution_amended.2.1 errMatcherW candW
      "re.error: unknown extension ?) at position 1" (by decide),
   c1_metadata_substitution_amended.2.2.1 [("author", "X")] (by decide),
   c1_metadata_substitution_amended.2.2.2 [("author", "X")] errMatcherW candW
     (by decide)⟩

/-- Claim C2: the first rule in declaration order that decides a drop determines
the outcome; appending any further rules after a decisive rule never changes
the decision for that candidate (evaluation short-circuits). -/
theorem c2_first_decisive_rule (m : Matcher) (rules rest : List Exclusion)
    (c : Candidate) (r : Exclusion) (h : decide_exclusion m rules c = some r) :
    decide_exclusion m (rules ++ rest) c = some r := by
  unfold decide_exclusion at h ⊢
  rw [List.find?_append, h]
  rfl

/-- Witness for C2: a decisive exclude rule on `a.md` keeps deciding the drop
after appending an include rule that would also decide (differently). -/
theorem c2_first_decisive_rule_witness :
    decide_exclusion eqMatcher (rulesW ++ restW) candW =
      some ⟨"exclude", "filename", "*", "a.md", none, []⟩ :=
  c2_first_decisive_rule eqMatcher rulesW restW candW
    ⟨"exclude", "filename", "*", "a.md", none, []⟩ (by decide)

/-- Claim C3: for a rule whose search field carries the negate flag (its key is
in `negated`), a candidate whose scope text matches the stripped pattern is
kept under Exclude mode; under Include mode a matching candidate is dropped
(when the path filter passes) and a non-matching one is kept. -/
theorem c3_negated_search (m : Matcher) (excl : Exclusion) (c : Candidate)
    (hneg : excl.negated.contains "search" = true) :
    (excl.mode = "exclude" → m excl.search (target_scope excl c) = true →
      rule_drops m excl c = false) ∧
    (excl.mode = "include" → m excl.search (target_scope excl c) = true →
      path_passes m excl c = true → rule_drops m excl c = true) ∧
    (excl.mode = "include" → m excl.search (target_scope excl c) = false →
      rule_drops m excl c = false) := by
  have hmem : "search" ∈ excl.negated := by simpa using hneg
  refine ⟨?_, ?_, ?_⟩
  · intro hmode hmatch
    simp [rule_drops, found_match, hneg, hmem, hmatch, hmode, mode_exclude, mode_include]
  · intro hmode hmatch hpath
    simp [rule_drops, found_match, hneg, hmem, hmatch, hmode, hpath, mode_exclude,
      mode_include]
  · intro hmode hmatch
    simp [rule_drops, found_match, hneg, hmem, hmatch, hmode, mode_exclude, mode_include]

/-- Witness for C3: an exclude rule with negated search whose pattern matches the
filename does not drop the candidate. -/
theorem c3_negated_search_witness : rule_drops eqMatcher exclW3 candW3 = false :=
  (c3_negated_search eqMatcher exclW3 candW3 (by decide)).1 (by decide) (by decide)

/-- Claim C4, counterexample: for headings at depths 1,2,2,1,2 (start 1, ordered,
Markdown output) the rendered entries do not carry the claimed dotted numbers
1., 1.1., 1.2., 2., 2.1. -/
theorem c4_ordered_numbering_counterexample :
    List.map entryMarker (toc_run 1 true false false "<ol>" "</ol>"
      (findHeadings 1 3 "# A\n## B\n## C\n# D\n## E")).lines ≠
      ["1.", "1.1.", "1.2.", "2.", "2.1."] := by
  decide

/-- Claim C4, amended: the rendered markers are the top-of-stack counter alone
followed by a period, namely 1., 1., 2., 1., 1.: the stack is pushed with 1s
on each depth increase, incremented at equal depth, and popped WITHOUT
incrementing on each depth decrease (so the sibling after a deeper run reuses
the popped counter value); nesting is conveyed by tab indentation. -/
theorem c4_ordered_numbering_amended :
    (toc_run 1 true false false "<ol>" "</ol>"
      (findHeadings 1 3 "# A\n## B\n## C\n# D\n## E")).lines =
      ["1. [A](#a)\x7b.section-title\x7d[](#a)\x7b.page-number\x7d",
       "\t1. [B](#b)\x7b.section-title\x7d[](#b)\x7b.page-number\x7d",
       "\t2. [C](#c)\x7b.section-title\x7d[](#c)\x7b.page-number\x7d",
       "1. [D](#d)\x7b.section-title\x7d[](#d)\x7b.page-number\x7d",
       "\t1. [E](#e)\x7b.section-title\x7d[](#e)\x7b.page-number\x7d"] ∧
    List.map entryMarker (toc_run 1 true false false "<ol>" "</ol>"
      (findHeadings 1 3 "# A\n## B\n## C\n# D\n## E")).lines =
      ["1.", "1.", "2.", "1.", "1."] := by
  constructor
  · decide
  · decide

/-- Claim C5, counterexample: for headings at depths 1 then 3 (start 1, depth 3,
Markdown output) the two entries are NOT rendered at nesting levels 0 and 2. -/
theorem c5_level_jump_counterexample :
    entryIndentLevels (toc_run 1 true false false "<ol>" "</ol>"
      (findHeadings 1 3 "# A\n### B")).lines ≠ [0, 2] := by
  decide

/-- Claim C5, amended: the outline for depths 1 then 3 renders the two entries
plus exactly one filler line, and exactly one warning is emitted naming the
jump from level 1 to level 3 and the offending title; however, in Markdown
output the filler line and the second entry are both emitted at indentation
level 0 (the non-first-entry filler branch indents by `x - 1` tabs and leaves
that indent in effect for the entry), not at levels 1 and 2. -/
theorem c5_level_jump_amended :
    (toc_run 1 true false false "<ol>" "</ol>" (findHeadings 1 3 "# A\n### B")).lines =
      ["1. [A](#a)\x7b.section-title\x7d[](#a)\x7b.page-number\x7d",
       "- &nbsp;",
       "1. [B](#b)\x7b.section-title\x7d[](#b)\x7b.page-number\x7d"] ∧
    (toc_run 1 true false false "<ol>" "</ol>" (findHeadings 1 3 "# A\n### B")).warnings =
      ["ToC entry jumps from heading level 1 to 3: B"] ∧
    entryIndentLevels (toc_run 1 true false false "<ol>" "</ol>"
      (findHeadings 1 3 "# A\n### B")).lines = [0, 0] := by
  refine ⟨by decide, by decide, by decide⟩

/-- Claim C6, counterexample: the computed clean title of the heading title
with inline code backticks around Intro and straight double quotes around
Overview is not `Intro & Overview` (the quotes are not stripped by the
title-cleaning step, only by the slug computation). -/
theorem c6_slug_counterexample :
    clean_title_of "`Intro` & \"Overview\"" ≠ "Intro & Overview" := by
  decide

/-- Claim C6, amended: the clean title keeps the straight double quotes,
`Intro & "Overview"`, while the slug computed from it is `intro-overview`
as claimed (the slug step strips quote characters first). -/
theorem c6_slug_amended :
    clean_title_of "`Intro` & \"Overview\"" = "Intro & \"Overview\"" ∧
    string_to_slug (clean_title_of "`Intro` & \"Overview\"") = "intro-overview" := by
  constructor
  · decide
  · decide

/-- Claim C7: directive expansion equals the independent expansion in which every
directive is replaced by the outline computed over its own remaining text of
the original document (from position 0 under `all`); each directive's span is
a function of the original text and that match alone, unaffected by the
replacements performed for the other directives. -/
theorem c7_independent_expansion (text : String) :
    process_toc text = independent_expand text := by
  unfold process_toc independent_expand toc_matches
  rw [subScanAux_eq_spliceGo text.data text.data.length text.data 0 true (Nat.le_refl _)]

/-- Claim C8, counterexample: one expansion pass over `{toc}{toc}` leaves the
line-anchored marker `{toc}` in its output (the second marker was not at a
line start in the input, but becomes line-anchored once the first is replaced
by the empty outline), so a second pass changes the output. -/
theorem c8_idempotence_counterexample :
    process_toc "\x7btoc\x7d\x7btoc\x7d" = .ok "\x7btoc\x7d" ∧
    process_toc "\x7btoc\x7d" ≠ .ok "\x7btoc\x7d" := by
  constructor
  · decide
  · decide

/-- Claim C8, amended: a directive's replacement text is never itself re-scanned
(single substitution pass), but one pass can leave line-anchored directive
markers in its output; whenever the first pass's output contains no
line-anchored directive marker, a second pass returns it unchanged. -/
theorem c8_idempotence_amended (t s : String) (_h1 : process_toc t = .ok s)
    (h2 : has_toc_directive s = false) : process_toc s = .ok s :=
  process_toc_of_no_directive s h2

/-- Witness for C8: expanding `{toc}` yields the empty string, which contains no
directive and passes through a second expansion unchanged. -/
theorem c8_idempotence_amended_witness :
    process_toc "\x7btoc\x7d" = .ok "" ∧ has_toc_directive "" = false ∧
      process_toc "" = .ok "" :=
  ⟨by decide, by decide, c8_idempotence_amended "\x7btoc\x7d" "" (by decide) (by decide)⟩

/-- Claim C9: outline generation for a directive is total ONLY under the
precondition `start ≤ depth` on the parsed (clamped) parameters — a successful
rendering implies the precondition held, and for every directive whose parsed
depth is smaller than its clamped start the heading-regex construction raises
an uncaught error (only `start` is clamped; `depth` is never validated
against it) and the directive's rendering aborts; for `{toc depth=0}` (parsed
depth 0, clamped start 1) the raised error is `re.error: min repeat greater
than max repeat` and the whole substitution pass aborts with it.  (Totality is
not sufficient under `start ≤ depth` alone: repeat counts of at least
4294967295 overflow, which `generate_toc` also models.) -/
theorem c9_depth_start_precondition :
    (∀ (orig : List Char) (endPos : Nat) (g : Option (List Char)),
      (toc_replace orig endPos g).isOk = true →
        (parseTocParams g).start ≤ (parseTocParams g).depth) ∧
    (∀ (orig : List Char) (endPos : Nat) (g : Option (List Char)),
      (parseTocParams g).depth < (parseTocParams g).start →
        (toc_replace orig endPos g).isOk = false) ∧
    process_toc "\x7btoc depth=0\x7d" =
      .error "re.error: min repeat greater than max repeat" := by
  refine ⟨?_, ?_, by decide⟩
  · intro orig endPos g hok
    unfold toc_replace at hok
    exact generate_toc_isOk_le _ _ _ _ _ _ _ hok
  · intro orig endPos g hlt
    unfold toc_replace
    exact generate_toc_not_ok_of_lt _ _ _ _ _ _ _ hlt

/-- Witness for C9: the default-parameter directive renders (so the necessity
direction applies with its hypothesis discharged), and the parsed parameters
of `depth=0` violate the precondition, making that directive's rendering
abort. -/
theorem c9_depth_start_precondition_witness :
    (parseTocParams (none : Option (List Char))).start ≤
      (parseTocParams (none : Option (List Char))).depth ∧
    (toc_replace "\x7btoc depth=0\x7d".data 13 (some "depth=0".data)).isOk = false :=
  ⟨c9_depth_start_precondition.1 [] 0 none (by decide),
   c9_depth_start_precondition.2.1 "\x7btoc depth=0\x7d".data 13 (some "depth=0".data)
     (by decide)⟩

/-- Claim C10: `generate_toc` appends the fixed class `toc` to its caller-supplied
classes list before rendering (the returned classes are the input plus `toc`),
so two successive calls with identical explicit arguments that share the
mutable default list produce different outputs: the second call's non-plain
wrapper carries `toc` twice.  The Python mutable-default aliasing is modelled
by feeding the first call's returned classes list into the second call. -/
theorem c10_classes_mutation :
    generate_toc "# A" 1 3 true false "markdown" [] =
      .ok ⟨"\x7b.toc\x7d\n1. [A](#a)\x7b.section-title\x7d[](#a)\x7b.page-number\x7d",
        ["toc"], []⟩ ∧
    generate_toc "# A" 1 3 true false "markdown" ["toc"] =
      .ok ⟨"\x7b.toc .toc\x7d\n1. [A](#a)\x7b.section-title\x7d[](#a)\x7b.page-number\x7d",
        ["toc", "toc"], []⟩ ∧
    ("\x7b.toc\x7d\n1. [A](#a)\x7b.section-title\x7d[](#a)\x7b.page-number\x7d" : String) ≠
      "\x7b.toc .toc\x7d\n1. [A](#a)\x7b.section-title\x7d[](#a)\x7b.page-number\x7d" := by
  refine ⟨by decide, by decide, by decide⟩
